import Mathlib

set_option maxHeartbeats 1000000

/- Shallow embedding of `inpToXMP.py`, a converter from 2D ABAQUS `.inp`
input files to FEniCS XML mesh files.  A `Record` is one already-tokenized
CSV line (list of string fields).  The stateful parser `_read_input` is
embedded as a step function `step_record` over an explicit `ParserState`,
folded over the record stream; exceptions that the Python code raises
(IndexError, ValueError, KeyError, AssertionError, NameError, and the
explicit `Exception` on the Invalid state) are modelled as `Except` errors.
Float coordinate tokens are checked against the `float()` grammar where the
source converts them, but stored as their raw string tokens: none of the
verified properties depends on the numeric value of a coordinate. -/

deriving instance DecidableEq for Except

/- The `State` class of the source: the parse-state enumeration. -/
inductive State where
  | Init
  | Unknown
  | Invalid
  | ReadHeading
  | ReadNodes
  | ReadCells
  | ReadNodeSet
  | ReadCellSet
  | ReadSurfaceSet
  deriving DecidableEq, Repr

/- The distinct ways the source aborts with an uncaught Python exception. -/
inductive PyErr where
  | indexError
  | valueError
  | assertionError
  | nameError
  | keyError
  | invalidStateError
  deriving DecidableEq, Repr

/- One tokenized input line: a list of string fields. -/
abbrev Record := List String

/- Kernel-computable counterparts of the Python string methods the source
uses (`lower`, `strip`, `startswith`, `split('=')`), over the character
list of the string. -/

def pyLower (s : String) : String :=
  ⟨s.data.map Char.toLower⟩

def pyStrip (s : String) : String :=
  ⟨((s.data.dropWhile Char.isWhitespace).reverse.dropWhile Char.isWhitespace).reverse⟩

def pyStartsWith (s pre : String) : Bool :=
  pre.data.isPrefixOf s.data

/- Python `s.split(c)` for a one-character separator. -/
def splitCharAux (c : Char) : List Char → List Char → List String
  | [], acc => [⟨acc.reverse⟩]
  | d :: rest, acc =>
    if d = c then ⟨acc.reverse⟩ :: splitCharAux c rest []
    else splitCharAux c rest (d :: acc)

def pySplitEq (s : String) : List String :=
  splitCharAux '=' s.data []

/- Value of a nonempty all-digit character list. -/
def digitsVal (cs : List Char) : Nat :=
  cs.foldl (fun a c => 10 * a + (c.toNat - 48)) 0

def allDigits (cs : List Char) : Bool :=
  !cs.isEmpty && cs.all Char.isDigit

/- Python `int(s)`: strip surrounding whitespace, optional sign, decimal
digits.  (Underscore digit grouping and non-ASCII digits, which Python also
accepts, are not modelled; no record in this development uses them.)
Returns `none` exactly where Python raises `ValueError`. -/
def pyInt (s : String) : Option Int :=
  match (pyStrip s).toList with
  | [] => none
  | '+' :: cs => if allDigits cs then some ((digitsVal cs : Nat) : Int) else none
  | '-' :: cs => if allDigits cs then some (-((digitsVal cs : Nat) : Int)) else none
  | c :: cs => if allDigits (c :: cs) then some ((digitsVal (c :: cs) : Nat) : Int) else none

/- The exponent tail of a float literal: empty, or `e`/`E`, an optional
sign, and at least one digit. -/
def floatExpPart : List Char → Bool
  | [] => true
  | e :: rest =>
    (e = 'e' || e = 'E') &&
    (match rest with
     | '+' :: ds => !ds.isEmpty && ds.all Char.isDigit
     | '-' :: ds => !ds.isEmpty && ds.all Char.isDigit
     | ds => !ds.isEmpty && ds.all Char.isDigit)

/- An unsigned decimal float literal: digits with an optional decimal
point (at least one digit on one of its sides) and an optional exponent. -/
def isPyFloatBody (cs : List Char) : Bool :=
  let ip := cs.takeWhile Char.isDigit
  match cs.dropWhile Char.isDigit with
  | [] => !ip.isEmpty
  | '.' :: rest2 =>
    let fp := rest2.takeWhile Char.isDigit
    (!ip.isEmpty || !fp.isEmpty) && floatExpPart (rest2.dropWhile Char.isDigit)
  | rest => !ip.isEmpty && floatExpPart rest

/- `inf`, `infinity` and `nan`, case-insensitive. -/
def isInfNan (cs : List Char) : Bool :=
  cs.map Char.toLower = ['i', 'n', 'f'] ||
  cs.map Char.toLower = ['i', 'n', 'f', 'i', 'n', 'i', 't', 'y'] ||
  cs.map Char.toLower = ['n', 'a', 'n']

/- Python `float(s)` acceptance: strip surrounding whitespace, optional
sign, then a decimal literal or `inf`/`infinity`/`nan`.  (Underscore digit
grouping and non-ASCII digits, which Python also accepts, are again not
modelled.)  Returns `false` exactly where `float()` raises `ValueError`. -/
def isPyFloat (s : String) : Bool :=
  match (pyStrip s).toList with
  | [] => false
  | '+' :: cs => isPyFloatBody cs || isInfNan cs
  | '-' :: cs => isPyFloatBody cs || isInfNan cs
  | cs => isPyFloatBody cs || isInfNan cs

/- `[int(n) for n in l]`: all-or-nothing integer parsing of a token list
(Python builds the whole list before it is used; the first bad token raises
and nothing is kept). -/
def pyIntList : List String → Option (List Int)
  | [] => some []
  | t :: rest =>
    match pyInt t, pyIntList rest with
    | some v, some vs => some (v :: vs)
    | _, _ => none

/- Python `dict` as an insertion-ordered association list with unique keys:
lookup. -/
def listGet? {κ α : Type} [DecidableEq κ] : List (κ × α) → κ → Option α
  | [], _ => none
  | p :: rest, k => if p.1 = k then some p.2 else listGet? rest k

/- Python `d[k] = v`: replace in place if the key is present (CPython keeps
the original position), append otherwise. -/
def listUpdate {κ α : Type} [DecidableEq κ] : List (κ × α) → κ → α → List (κ × α)
  | [], k, v => [(k, v)]
  | p :: rest, k, v => if p.1 = k then (k, v) :: rest else p :: listUpdate rest k v

/- `if k not in d: d[k] = set()`. -/
def ensureKey {κ β : Type} [DecidableEq κ] [DecidableEq β]
    (m : List (κ × Finset β)) (k : κ) : List (κ × Finset β) :=
  match listGet? m k with
  | some _ => m
  | none => m ++ [(k, (∅ : Finset β))]

/- `d[k].update(s)` / `d[k].add(x)` on a key known to be present (no change
when the key is absent; each call site that can reach an absent key models
the KeyError separately). -/
def setUnionAt {κ β : Type} [DecidableEq κ] [DecidableEq β]
    (m : List (κ × Finset β)) (k : κ) (s : Finset β) : List (κ × Finset β) :=
  m.map fun p => if p.1 = k then (p.1, p.2 ∪ s) else p

/- Python `range(a, b, s)` for a positive step, by structural recursion on
a fuel that bounds the iteration count (for `0 < s`, `(b - a).toNat` steps
of size at least one always suffice). -/
def pyRangeUpAux (s : Int) : Nat → Int → Int → List Int
  | 0, _, _ => []
  | fuel + 1, a, b => if a < b then a :: pyRangeUpAux s fuel (a + s) b else []

def pyRangeUp (a b s : Int) : List Int :=
  pyRangeUpAux s (b - a).toNat a b

/- Python `range(a, b, s)` for a negative step. -/
def pyRangeDownAux (s : Int) : Nat → Int → Int → List Int
  | 0, _, _ => []
  | fuel + 1, a, b => if b < a then a :: pyRangeDownAux s fuel (a + s) b else []

def pyRangeDown (a b s : Int) : List Int :=
  pyRangeDownAux s (a - b).toNat a b

/- Python `list(range(a, b, s))`; a zero step raises `ValueError`, which the
call site turns into a skipped line. -/
def pyRange (a b s : Int) : List Int :=
  if 0 < s then pyRangeUp a b s else if s < 0 then pyRangeDown a b s else []

/- `_read_part_name`: `l[1].split('=')[1].strip()`, with the IndexErrors the
source raises when `l` has no second field or the field has no `=`. -/
def read_part_name (l : Record) : Except PyErr String :=
  match l.get? 1 with
  | none => .error .indexError
  | some f1 =>
    match (pySplitEq f1).get? 1 with
    | none => .error .indexError
    | some p => .ok (pyStrip p)

/- `_create_node_list_entry`: only a record of exactly two fields is
inspected for an `nset=<name>` option; the `assert len(set_data) == 2`
fires when the second field does not split on `=` into exactly two parts. -/
def create_node_list_entry (node_sets : List (String × Finset Int)) (l : Record) :
    Except PyErr (List (String × Finset Int) × Option String) :=
  match l with
  | [_, f1] =>
    match pySplitEq f1 with
    | [k, nm] =>
      if pyLower k = "nset" then .ok (ensureKey node_sets nm, some nm)
      else .ok (node_sets, none)
    | _ => .error .assertionError
  | _ => .ok (node_sets, none)

/- The `for key in l[1:]` loop of `_read_element_keywords`: accumulate
`type=` and `elset=` options; `key_parts[1]` raises IndexError when a
recognized key has no `=` part. -/
def element_keyword_loop :
    Option String → Option String → List String → Except PyErr (Option String × Option String)
  | ty, nm, [] => .ok (ty, nm)
  | ty, nm, key :: rest =>
    match pySplitEq key with
    | [] => .error .indexError
    | k :: vs =>
      if pyStrip (pyLower k) = "type" then
        match vs.head? with
        | none => .error .indexError
        | some v => element_keyword_loop (some (pyStrip (pyLower v))) nm rest
      else if pyStrip (pyLower k) = "elset" then
        match vs.head? with
        | none => .error .indexError
        | some v => element_keyword_loop ty (some (pyStrip v)) rest
      else element_keyword_loop ty nm rest

/- `_read_element_keywords`: the set is created only when the name is
Python-truthy (`if element_set_name:`), i.e. present and nonempty. -/
def read_element_keywords (cell_sets : List (String × Finset Int)) (l : Record) :
    Except PyErr (List (String × Finset Int) × Option String × Option String) :=
  match element_keyword_loop none none l.tail with
  | .error e => .error e
  | .ok (ty, nm) =>
    match nm with
    | some n =>
      if n = "" then .ok (cell_sets, ty, nm)
      else .ok (ensureKey cell_sets n, ty, nm)
    | none => .ok (cell_sets, ty, nm)

/- `_read_nset_keywords`: `l[1]` must exist and split on `=` into exactly
`["nset", name]` (otherwise AssertionError / IndexError); an exact third
field `generate` (case-insensitive) turns the generate flag on. -/
def read_nset_keywords (node_sets : List (String × Finset Int)) (l : Record) :
    Except PyErr (List (String × Finset Int) × String × Option Bool) :=
  match l.get? 1 with
  | none => .error .indexError
  | some f1 =>
    match pySplitEq f1 with
    | [k, nm] =>
      if pyLower k = "nset" then
        let g : Option Bool :=
          if l.length = 3 then
            match l.get? 2 with
            | some f2 => if pyLower f2 = "generate" then some true else none
            | none => none
          else none
        .ok (ensureKey node_sets nm, nm, g)
      else .error .assertionError
    | _ => .error .assertionError

/- `_read_elset_keywords`: same shape with key `elset`. -/
def read_elset_keywords (sets : List (String × Finset Int)) (l : Record) :
    Except PyErr (List (String × Finset Int) × String × Option Bool) :=
  match l.get? 1 with
  | none => .error .indexError
  | some f1 =>
    match pySplitEq f1 with
    | [k, nm] =>
      if pyLower k = "elset" then
        let g : Option Bool :=
          if l.length = 3 then
            match l.get? 2 with
            | some f2 => if pyLower f2 = "generate" then some true else none
            | none => none
          else none
        .ok (ensureKey sets nm, nm, g)
      else .error .assertionError
    | _ => .error .assertionError

/- `_read_surface_keywords`: key must be `name`; returns the name
(`generate` is always set to `False` by the source). -/
def read_surface_keywords (sets : List (String × Finset (List String))) (l : Record) :
    Except PyErr (List (String × Finset (List String)) × String) :=
  match l.get? 1 with
  | none => .error .indexError
  | some f1 =>
    match pySplitEq f1 with
    | [k, nm] =>
      if pyLower k = "name" then .ok (ensureKey sets nm, nm)
      else .error .assertionError
    | _ => .error .assertionError

/- The local state of `_read_input`: the parse state, the five accumulator
dictionaries, plus the Python locals that persist across loop iterations.
Locals the source leaves unassigned until first use are modelled as
`Option`, with `none` triggering the NameError the source would raise at a
use before assignment (all such uses are unreachable). -/
structure ParserState where
  st : State
  nodes : List (Int × List String)
  elems : List (Int × List Int)
  node_sets : List (String × Finset Int)
  cell_sets : List (String × Finset Int)
  surface_sets : List (String × Finset (List String))
  node_set_name : Option String
  cell_set_name : Option String
  surface_set_name : Option String
  gen : Option Bool
  cell_type : Option String
  part_name : Option String
  model_name : Option String
  deriving DecidableEq

def init_state : ParserState :=
  { st := .Init
    nodes := []
    elems := []
    node_sets := []
    cell_sets := []
    surface_sets := []
    node_set_name := none
    cell_set_name := none
    surface_set_name := none
    gen := none
    cell_type := none
    part_name := none
    model_name := none }

/- `if l[-1] == '': l.pop(-1)`. -/
def strip_trailing_empty (l : Record) : Record :=
  if l.getLast? = some "" then l.dropLast else l

/- The generate branch: `n0, n1, increment = l` (ValueError unless exactly
3 fields), integer conversions, `range` (ValueError on zero step), plus the
unconditionally appended endpoint `n1 - 1`; `none` when the catch-all
`except` would fire. -/
def generate_line_ids (l : Record) : Option (List Int) :=
  match l with
  | [a, b, c] =>
    match pyInt a, pyInt b, pyInt c with
    | some n0, some n1, some inc =>
      if inc = 0 then none
      else some (pyRange (n0 - 1) (n1 - 1) inc ++ [n1 - 1])
    | _, _, _ => none
  | _ => none

/- The zero-based id list denoted by a `*nset`/`*elset` data line, `none`
exactly when the source's catch-all `except` fires: non-integer token,
unpacking a non-3-field line in generate mode, or a zero range step. -/
def set_line_ids (gen : Option Bool) (l : Record) : Option (List Int) :=
  if gen = some true then generate_line_ids l
  else (pyIntList (strip_trailing_empty l)).map (fun ns => ns.map (fun n => n - 1))

/- The whole `try`-protected body of the ReadNodeSet / ReadCellSet data
branch: every failure (NameError, KeyError, int ValueError, unpack error,
zero step) is caught and the line is skipped, leaving the dictionary
unchanged. -/
def apply_set_line (m : List (String × Finset Int)) (name? : Option String)
    (gen : Option Bool) (l : Record) : List (String × Finset Int) :=
  match name? with
  | none => m
  | some nm =>
    match listGet? m nm with
    | none => m
    | some _ =>
      match set_line_ids gen l with
      | none => m
      | some ids => setUnionAt m nm ids.toFinset

/- The keyword branch of the loop body of `_read_input` (first field starts
with `*` but not `**`).  The source sets `state = State.Unknown` before
dispatching, so `*part` and unrecognized keywords leave the state Unknown. -/
def step_keyword (ps : ParserState) (l : Record) (f0 : String) : Except PyErr ParserState :=
  if pyLower f0 = "*heading" then .ok { ps with st := .ReadHeading }
  else if pyLower f0 = "*part" then
    match read_part_name l with
    | .error e => .error e
    | .ok pn => .ok { ps with st := .Unknown, part_name := some pn }
  else if pyLower f0 = "*end part" then .ok { ps with st := .Invalid }
  else if pyLower f0 = "*node" then
    match create_node_list_entry ps.node_sets l with
    | .error e => .error e
    | .ok (nsets, nm) =>
      .ok { ps with st := .ReadNodes, node_sets := nsets, node_set_name := nm }
  else if pyLower f0 = "*element" then
    match read_element_keywords ps.cell_sets l with
    | .error e => .error e
    | .ok (csets, ty, nm) =>
      .ok { ps with st := .ReadCells, cell_sets := csets, cell_type := ty, cell_set_name := nm }
  else if pyLower f0 = "*nset" then
    match read_nset_keywords ps.node_sets l with
    | .error e => .error e
    | .ok (nsets, nm, g) =>
      .ok { ps with st := .ReadNodeSet, node_sets := nsets, node_set_name := some nm, gen := g }
  else if pyLower f0 = "*elset" then
    match read_elset_keywords ps.cell_sets l with
    | .error e => .error e
    | .ok (csets, nm, g) =>
      .ok { ps with st := .ReadCellSet, cell_sets := csets, cell_set_name := some nm, gen := g }
  else if pyLower f0 = "*surface" then
    match read_surface_keywords ps.surface_sets l with
    | .error e => .error e
    | .ok (ssets, nm) =>
      .ok { ps with st := .ReadSurfaceSet, surface_sets := ssets,
                    surface_set_name := some nm, gen := some false }
  else .ok { ps with st := .Unknown }

/- The data-line branch of the loop body of `_read_input`, dispatching on
the current parse state.  In ReadNodes, `coords = [float(c) for c in
l[1:]]` raises an uncaught ValueError when any coordinate token is not
float-parseable, before anything is stored; on success the coordinates are
kept as their validated raw tokens (their numeric float values are never
consulted by the verified properties). -/
def step_data (ps : ParserState) (l : Record) (f0 : String) : Except PyErr ParserState :=
  if ps.st = .ReadHeading then .ok { ps with model_name := some (pyStrip f0) }
  else if ps.st = .ReadNodes then
    match pyInt f0 with
    | none => .error .valueError
    | some n =>
      if (l.tail).all isPyFloat then
        match ps.node_set_name with
        | none => .ok { ps with nodes := listUpdate ps.nodes (n - 1) l.tail }
        | some nm =>
          match listGet? ps.node_sets nm with
          | none => .error .keyError
          | some _ =>
            .ok { ps with nodes := listUpdate ps.nodes (n - 1) l.tail,
                          node_sets := setUnionAt ps.node_sets nm {n - 1} }
      else .error .valueError
  else if ps.st = .ReadCells then
    match pyInt f0 with
    | none => .error .valueError
    | some n =>
      match pyIntList l.tail with
      | none => .error .valueError
      | some vs =>
        match ps.cell_set_name with
        | none => .ok { ps with elems := listUpdate ps.elems (n - 1) (vs.map (fun v => v - 1)) }
        | some nm =>
          match listGet? ps.cell_sets nm with
          | none => .error .keyError
          | some _ =>
            .ok { ps with elems := listUpdate ps.elems (n - 1) (vs.map (fun v => v - 1)),
                          cell_sets := setUnionAt ps.cell_sets nm {n - 1} }
  else if ps.st = .ReadNodeSet then
    .ok { ps with node_sets := apply_set_line ps.node_sets ps.node_set_name ps.gen l }
  else if ps.st = .ReadCellSet then
    .ok { ps with cell_sets := apply_set_line ps.cell_sets ps.cell_set_name ps.gen l }
  else if ps.st = .ReadSurfaceSet then
    match ps.surface_set_name with
    | none => .error .nameError
    | some nm =>
      match listGet? ps.surface_sets nm with
      | none => .error .keyError
      | some _ =>
        .ok { ps with surface_sets := setUnionAt ps.surface_sets nm {strip_trailing_empty l} }
  else if ps.st = .Invalid then .error .invalidStateError
  else .ok ps

/- One iteration of the `for l in input_file` loop: an empty record raises
IndexError at `l[0]`, a `**` record is skipped, a `*` record dispatches on
the keyword, anything else is a data line. -/
def step_record (ps : ParserState) (l : Record) : Except PyErr ParserState :=
  match l with
  | [] => .error .indexError
  | f0 :: _ =>
    if pyStartsWith f0 "**" then .ok ps
    else if pyStartsWith f0 "*" then step_keyword ps l f0
    else step_data ps l f0

/- The full parse pass of `_read_input` over a record stream. -/
def run_parse (ls : List Record) : Except PyErr ParserState :=
  ls.foldlM step_record init_state

/- The four dictionaries `_read_input` returns.  The surface-set dictionary
is a local of the source function and is not part of the return value. -/
structure MeshModel where
  nodes : List (Int × List String)
  elems : List (Int × List Int)
  node_sets : List (String × Finset Int)
  cell_sets : List (String × Finset Int)
  deriving DecidableEq

/- `_read_input` as observed by its caller: `return nodes, elems,
node_sets, cell_sets`. -/
def read_input (ls : List Record) : Except PyErr MeshModel :=
  (run_parse ls).map (fun ps => ⟨ps.nodes, ps.elems, ps.node_sets, ps.cell_sets⟩)

/- Serializer (`_write_XMP`).  Coordinate attribute text: the source
formats each stored float with `'%.16e'`; here the raw stored token is
emitted instead, which changes only the text inside the `x=`/`y=` vertex
attributes and nothing about the structure, the ids, or the cells
section. -/
def vertex_attrs (coords : List String) : String :=
  String.intercalate " " ((List.zip ["x", "y"] coords).map (fun p => p.1 ++ "=\"" ++ p.2 ++ "\""))

def vertex_line (p : Int × List String) : String :=
  "      <vertex index=\"" ++ toString p.1 ++ "\" " ++ vertex_attrs p.2 ++ " z=\"0\"/>\n"

/- Everything `_write_XMP` writes before the first cell line: xml
declaration, root, mesh and vertices sections, and the opening `cells` tag
whose size counts all elements. -/
def xmp_head (nodes : List (Int × List String)) (nelems : Nat) : String :=
  "<?xml version=\"1.0\" encoding=\"UTF-8\"?>\n \n" ++
  "<dolfin xmlns:dolfi=\"http://www.fenicsproject.org\">\n" ++
  "  <mesh celltype=\"triangle\" dim=\"2\">\n" ++
  "    <vertices size=\"" ++ toString nodes.length ++ "\">\n" ++
  String.join (nodes.map vertex_line) ++
  "    </vertices>\n" ++
  "    <cells size=\"" ++ toString nelems ++ "\">\n"

def triangle_line (cid v0 v1 v2 : Int) : String :=
  "      <triangle index=\"" ++ toString cid ++ "\" v0=\"" ++ toString v0 ++
  "\" v1=\"" ++ toString v1 ++ "\" v2=\"" ++ toString v2 ++ "\"/>\n"

/- The `for c_index, c_data in iteritems(elems)` loop: each cell line reads
`c_data[0], c_data[1], c_data[2]`; a connectivity shorter than 3 raises
IndexError before anything of that line is written, leaving the text
written so far in the file. -/
def cell_lines : List (Int × List Int) → String × Option PyErr
  | [] => ("", none)
  | (cid, conn) :: rest =>
    match conn with
    | v0 :: v1 :: v2 :: _ =>
      ((triangle_line cid v0 v1 v2) ++ (cell_lines rest).1, (cell_lines rest).2)
    | _ => ("", some .indexError)

/- `_write_XMP`: the text written to the output file, paired with the
uncaught IndexError if one occurs mid-write.  The two set dictionaries are
accepted and ignored, as in the source signature. -/
def write_XMP (nodes : List (Int × List String)) (elems : List (Int × List Int))
    (node_sets : List (String × Finset Int)) (cell_sets : List (String × Finset Int)) :
    String × Option PyErr :=
  match cell_lines elems with
  | (ctext, some e) => (xmp_head nodes elems.length ++ ctext, some e)
  | (ctext, none) =>
    (xmp_head nodes elems.length ++ ctext ++ "    </cells>\n" ++ "  </mesh>\n" ++ "</dolfin>", none)

/- Command surface.  `_inp_to_XML` reads `args['names'][0]` and
`args['names'][1]` before any emptiness check; file I/O past the
positional-argument handling is outside this embedding, so a run that gets
past it is recorded as `proceeds`. -/
inductive ConvStart where
  | noInput
  | noOutput
  | proceeds (input output : String)
  deriving DecidableEq, Repr

def inp_to_XML_args (names : List String) : Except PyErr ConvStart :=
  match names.get? 0 with
  | none => .error .indexError
  | some i =>
    match names.get? 1 with
    | none => .error .indexError
    | some o =>
      if i = "" then .ok .noInput
      else if o = "" then .ok .noOutput
      else .ok (.proceeds i o)

inductive CmdResult where
  | helpShown
  | converted (c : ConvStart)
  | raised (e : PyErr)
  deriving DecidableEq, Repr

/- `command_line_runner`: help is printed only when the `names` list is
empty (`if not args['names']`); otherwise `convert_to_XML` runs, and any
exception it raises escapes (`except ...: raise`). -/
def command_line_runner (names : List String) : CmdResult :=
  if names = [] then .helpShown
  else
    match inp_to_XML_args names with
    | .ok c => .converted c
    | .error e => .raised e

/- Accumulation order for the mesh model under parsing: every node id and
element id present earlier is still present, and every named node-set and
element-set present earlier is still present with at least the same
members. -/
def keysLe {α : Type} (a b : List (Int × α)) : Prop :=
  ∀ i, (listGet? a i).isSome = true → (listGet? b i).isSome = true

def setsLe {β : Type} [DecidableEq β] (a b : List (String × Finset β)) : Prop :=
  ∀ nm s, listGet? a nm = some s → ∃ t, listGet? b nm = some t ∧ s ⊆ t

def accumLe (a b : ParserState) : Prop :=
  keysLe a.nodes b.nodes ∧ keysLe a.elems b.elems ∧
  setsLe a.node_sets b.node_sets ∧ setsLe a.cell_sets b.cell_sets

/- Helper lemmas about the dictionary model. -/

theorem listGet?_listUpdate_self {κ α : Type} [DecidableEq κ] (m : List (κ × α)) (k : κ) (v : α) :
    listGet? (listUpdate m k v) k = some v := by
  induction m with
  | nil => simp [listUpdate, listGet?]
  | cons p rest ih =>
    by_cases h : p.1 = k
    · simp [listUpdate, listGet?, h]
    · simp [listUpdate, listGet?, h, ih]

theorem listGet?_listUpdate_ne {κ α : Type} [DecidableEq κ] (m : List (κ × α)) (k j : κ) (v : α)
    (hjk : j ≠ k) : listGet? (listUpdate m k v) j = listGet? m j := by
  have hkj : ¬ (k = j) := fun hh => hjk hh.symm
  induction m with
  | nil => simp [listUpdate, listGet?, hkj]
  | cons p rest ih =>
    by_cases h : p.1 = k
    · rw [listUpdate, if_pos h]
      simp only [listGet?]
      rw [if_neg hkj, if_neg (h ▸ hkj)]
    · rw [listUpdate, if_neg h]
      simp only [listGet?]
      by_cases hj : p.1 = j
      · rw [if_pos hj, if_pos hj]
      · rw [if_neg hj, if_neg hj, ih]

theorem listGet?_append_left {κ α : Type} [DecidableEq κ] (m m' : List (κ × α)) (k : κ) (v : α)
    (h : listGet? m k = some v) : listGet? (m ++ m') k = some v := by
  induction m with
  | nil => simp [listGet?] at h
  | cons p rest ih =>
    by_cases hp : p.1 = k
    · simp only [listGet?, if_pos hp] at h
      simp [listGet?, hp, h]
    · simp only [listGet?, if_neg hp] at h
      simp [listGet?, hp, ih h]

theorem listGet?_append_right {κ α : Type} [DecidableEq κ] (m m' : List (κ × α)) (k : κ)
    (h : listGet? m k = none) : listGet? (m ++ m') k = listGet? m' k := by
  induction m with
  | nil => simp
  | cons p rest ih =>
    by_cases hp : p.1 = k
    · simp [listGet?, hp] at h
    · simp only [listGet?, if_neg hp] at h
      simp [listGet?, hp, ih h]

theorem listGet?_ensureKey_of_some {κ β : Type} [DecidableEq κ] [DecidableEq β]
    (m : List (κ × Finset β)) (k j : κ) (s : Finset β) (h : listGet? m j = some s) :
    listGet? (ensureKey m k) j = some s := by
  unfold ensureKey
  cases hk : listGet? m k with
  | some t => exact h
  | none => exact listGet?_append_left m _ j s h

theorem isSome_listGet?_ensureKey_self {κ β : Type} [DecidableEq κ] [DecidableEq β]
    (m : List (κ × Finset β)) (k : κ) : (listGet? (ensureKey m k) k).isSome = true := by
  unfold ensureKey
  cases hk : listGet? m k with
  | some t => simp [hk]
  | none => rw [listGet?_append_right m _ k hk]; simp [listGet?]

theorem listGet?_setUnionAt_self {κ β : Type} [DecidableEq κ] [DecidableEq β]
    (m : List (κ × Finset β)) (k : κ) (s t : Finset β) (h : listGet? m k = some t) :
    listGet? (setUnionAt m k s) k = some (t ∪ s) := by
  induction m with
  | nil => simp [listGet?] at h
  | cons p rest ih =>
    obtain ⟨pk, pv⟩ := p
    simp only [setUnionAt, List.map_cons] at ih ⊢
    by_cases hp : pk = k
    · subst hp
      simp only [listGet?, if_pos rfl] at h
      obtain rfl : pv = t := Option.some.inj h
      simp [listGet?]
    · simp only [listGet?, if_neg hp] at h ⊢
      exact ih h

theorem listGet?_setUnionAt_ne {κ β : Type} [DecidableEq κ] [DecidableEq β]
    (m : List (κ × Finset β)) (k j : κ) (s : Finset β) (hjk : j ≠ k) :
    listGet? (setUnionAt m k s) j = listGet? m j := by
  have hkj : ¬ (k = j) := fun h => hjk h.symm
  induction m with
  | nil => simp [setUnionAt, listGet?]
  | cons p rest ih =>
    obtain ⟨pk, pv⟩ := p
    simp only [setUnionAt, List.map_cons] at ih ⊢
    by_cases hp : pk = k
    · subst hp
      simp only [if_pos rfl, if_true, eq_self_iff_true, listGet?, hkj, if_false]
      exact ih
    · rw [if_neg hp]
      simp only [listGet?]
      by_cases hj : pk = j
      · simp [hj]
      · simp only [hj, if_false]
        exact ih

/- Membership in Python's upward range. -/
theorem mem_pyRangeUpAux (s x : Int) (hs : 0 < s) :
    ∀ (fuel : Nat) (a b : Int), (b - a).toNat ≤ fuel →
      (x ∈ pyRangeUpAux s fuel a b ↔ ∃ k : Nat, x = a + s * (k : Int) ∧ x < b) := by
  intro fuel
  induction fuel with
  | zero =>
    intro a b hf
    have hba : b ≤ a := by omega
    simp only [pyRangeUpAux, List.not_mem_nil, false_iff, not_exists, not_and]
    rintro k rfl hlt
    have hk : (0 : Int) ≤ s * (k : Int) := mul_nonneg hs.le (Int.natCast_nonneg k)
    linarith
  | succ n ih =>
    intro a b hf
    simp only [pyRangeUpAux]
    by_cases hab : a < b
    · rw [if_pos hab, List.mem_cons, ih (a + s) b (by omega)]
      constructor
      · rintro (rfl | ⟨k, rfl, hk⟩)
        · exact ⟨0, by simp, hab⟩
        · exact ⟨k + 1, by push_cast; ring, hk⟩
      · rintro ⟨k, rfl, hk⟩
        cases k with
        | zero => left; simp
        | succ k => right; exact ⟨k, by push_cast; ring, hk⟩
    · rw [if_neg hab]
      simp only [List.not_mem_nil, false_iff, not_exists, not_and]
      rintro k rfl hlt
      have hk : (0 : Int) ≤ s * (k : Int) := mul_nonneg hs.le (Int.natCast_nonneg k)
      have hba : b ≤ a := by omega
      linarith

/- Membership in `pyRange` for a positive step: exactly the multiples of
the step from `a` that stay strictly below `b`. -/
theorem mem_pyRange_pos (a b s x : Int) (hs : 0 < s) :
    x ∈ pyRange a b s ↔ ∃ k : Nat, x = a + s * (k : Int) ∧ x < b := by
  unfold pyRange pyRangeUp
  rw [if_pos hs]
  exact mem_pyRangeUpAux s x hs _ a b le_rfl

/- A list containing a token `pyInt` rejects parses to `none`. -/
theorem pyIntList_eq_none {l : List String} {t : String}
    (ht : t ∈ l) (hn : pyInt t = none) : pyIntList l = none := by
  induction l with
  | nil => cases ht
  | cons a rest ih =>
    rcases List.mem_cons.mp ht with rfl | hmem
    · simp [pyIntList, hn]
    · cases ha : pyInt a with
      | none => simp [pyIntList, ha]
      | some v => simp [pyIntList, ha, ih hmem]

/- Reflexivity and transitivity of the accumulation order. -/

theorem keysLe_refl {α : Type} (m : List (Int × α)) : keysLe m m :=
  fun _ h => h

theorem keysLe_trans {α : Type} {a b c : List (Int × α)}
    (h1 : keysLe a b) (h2 : keysLe b c) : keysLe a c :=
  fun i h => h2 i (h1 i h)

theorem setsLe_refl {β : Type} [DecidableEq β] (m : List (String × Finset β)) : setsLe m m :=
  fun _ s h => ⟨s, h, subset_rfl⟩

theorem setsLe_trans {β : Type} [DecidableEq β] {a b c : List (String × Finset β)}
    (h1 : setsLe a b) (h2 : setsLe b c) : setsLe a c := by
  intro nm s h
  obtain ⟨t, ht, hst⟩ := h1 nm s h
  obtain ⟨u, hu, htu⟩ := h2 nm t ht
  exact ⟨u, hu, hst.trans htu⟩

theorem accumLe_refl (ps : ParserState) : accumLe ps ps :=
  ⟨keysLe_refl _, keysLe_refl _, setsLe_refl _, setsLe_refl _⟩

theorem accumLe_trans {a b c : ParserState} (h1 : accumLe a b) (h2 : accumLe b c) :
    accumLe a c :=
  ⟨keysLe_trans h1.1 h2.1, keysLe_trans h1.2.1 h2.2.1,
   setsLe_trans h1.2.2.1 h2.2.2.1, setsLe_trans h1.2.2.2 h2.2.2.2⟩

/- The dictionary operations of the parser only grow the model. -/

theorem keysLe_listUpdate {α : Type} (m : List (Int × α)) (k : Int) (v : α) :
    keysLe m (listUpdate m k v) := by
  intro i hi
  by_cases hik : i = k
  · subst hik
    rw [listGet?_listUpdate_self]
    rfl
  · rw [listGet?_listUpdate_ne m k i v hik]
    exact hi

theorem setsLe_ensureKey {β : Type} [DecidableEq β] (m : List (String × Finset β)) (k : String) :
    setsLe m (ensureKey m k) := by
  intro nm s h
  exact ⟨s, listGet?_ensureKey_of_some m k nm s h, subset_rfl⟩

theorem setsLe_setUnionAt {β : Type} [DecidableEq β] (m : List (String × Finset β))
    (k : String) (s : Finset β) : setsLe m (setUnionAt m k s) := by
  intro nm t h
  by_cases hnk : nm = k
  · subst hnk
    exact ⟨t ∪ s, listGet?_setUnionAt_self m nm s t h, Finset.subset_union_left⟩
  · exact ⟨t, (listGet?_setUnionAt_ne m k nm s hnk).trans h, subset_rfl⟩

theorem apply_set_line_le (m : List (String × Finset Int)) (name? : Option String)
    (gen : Option Bool) (l : Record) : setsLe m (apply_set_line m name? gen l) := by
  unfold apply_set_line
  split
  · exact setsLe_refl m
  · split
    · exact setsLe_refl m
    · split
      · exact setsLe_refl m
      · exact setsLe_setUnionAt m _ _

/- The keyword helpers only grow the set dictionaries they touch. -/

theorem create_node_list_entry_le (m : List (String × Finset Int)) (l : Record)
    (r : List (String × Finset Int) × Option String)
    (h : create_node_list_entry m l = .ok r) : setsLe m r.1 := by
  unfold create_node_list_entry at h
  split at h
  · split at h
    · split at h
      · obtain rfl := Except.ok.inj h
        exact setsLe_ensureKey m _
      · obtain rfl := Except.ok.inj h
        exact setsLe_refl m
    · exact Except.noConfusion h
  · obtain rfl := Except.ok.inj h
    exact setsLe_refl m

theorem read_element_keywords_le (m : List (String × Finset Int)) (l : Record)
    (r : List (String × Finset Int) × Option String × Option String)
    (h : read_element_keywords m l = .ok r) : setsLe m r.1 := by
  unfold read_element_keywords at h
  split at h
  · exact Except.noConfusion h
  · split at h
    · split at h
      · obtain rfl := Except.ok.inj h
        exact setsLe_refl m
      · obtain rfl := Except.ok.inj h
        exact setsLe_ensureKey m _
    · obtain rfl := Except.ok.inj h
      exact setsLe_refl m

theorem read_nset_keywords_le (m : List (String × Finset Int)) (l : Record)
    (r : List (String × Finset Int) × String × Option Bool)
    (h : read_nset_keywords m l = .ok r) : setsLe m r.1 := by
  unfold read_nset_keywords at h
  split at h
  · exact Except.noConfusion h
  · split at h
    · split at h
      · obtain rfl := Except.ok.inj h
        exact setsLe_ensureKey m _
      · exact Except.noConfusion h
    · exact Except.noConfusion h

theorem read_elset_keywords_le (m : List (String × Finset Int)) (l : Record)
    (r : List (String × Finset Int) × String × Option Bool)
    (h : read_elset_keywords m l = .ok r) : setsLe m r.1 := by
  unfold read_elset_keywords at h
  split at h
  · exact Except.noConfusion h
  · split at h
    · split at h
      · obtain rfl := Except.ok.inj h
        exact setsLe_ensureKey m _
      · exact Except.noConfusion h
    · exact Except.noConfusion h

/- A successful keyword record only grows the model. -/
theorem step_keyword_accumLe (ps ps' : ParserState) (l : Record) (f0 : String)
    (h : step_keyword ps l f0 = .ok ps') : accumLe ps ps' := by
  unfold step_keyword at h
  split_ifs at h
  · obtain rfl := Except.ok.inj h
    exact accumLe_refl ps
  · split at h
    · exact Except.noConfusion h
    · obtain rfl := Except.ok.inj h
      exact accumLe_refl ps
  · obtain rfl := Except.ok.inj h
    exact accumLe_refl ps
  · split at h
    · exact Except.noConfusion h
    · rename_i nsets nm heq
      obtain rfl := Except.ok.inj h
      exact ⟨keysLe_refl _, keysLe_refl _, create_node_list_entry_le _ _ _ heq, setsLe_refl _⟩
  · split at h
    · exact Except.noConfusion h
    · rename_i csets ty nm heq
      obtain rfl := Except.ok.inj h
      exact ⟨keysLe_refl _, keysLe_refl _, setsLe_refl _, read_element_keywords_le _ _ _ heq⟩
  · split at h
    · exact Except.noConfusion h
    · rename_i nsets nm g heq
      obtain rfl := Except.ok.inj h
      exact ⟨keysLe_refl _, keysLe_refl _, read_nset_keywords_le _ _ _ heq, setsLe_refl _⟩
  · split at h
    · exact Except.noConfusion h
    · rename_i csets nm g heq
      obtain rfl := Except.ok.inj h
      exact ⟨keysLe_refl _, keysLe_refl _, setsLe_refl _, read_elset_keywords_le _ _ _ heq⟩
  · split at h
    · exact Except.noConfusion h
    · obtain rfl := Except.ok.inj h
      exact accumLe_refl ps
  · obtain rfl := Except.ok.inj h
    exact accumLe_refl ps

/- A successful data record only grows the model.  After splitting the
state dispatch, every remaining branch is either an error (impossible with
a successful step), or returns the state with at most one dictionary grown
by `listUpdate`, `setUnionAt` or `apply_set_line`. -/
theorem step_data_accumLe (ps ps' : ParserState) (l : Record) (f0 : String)
    (h : step_data ps l f0 = .ok ps') : accumLe ps ps' := by
  unfold step_data at h
  split_ifs at h <;> try split at h <;> try split at h <;> try split at h <;> try split at h
  all_goals first
    | exact Except.noConfusion h
    | (obtain rfl := Except.ok.inj h
       first
         | exact accumLe_refl ps
         | exact ⟨keysLe_listUpdate _ _ _, keysLe_refl _, setsLe_refl _, setsLe_refl _⟩
         | exact ⟨keysLe_listUpdate _ _ _, keysLe_refl _, setsLe_setUnionAt _ _ _, setsLe_refl _⟩
         | exact ⟨keysLe_refl _, keysLe_listUpdate _ _ _, setsLe_refl _, setsLe_refl _⟩
         | exact ⟨keysLe_refl _, keysLe_listUpdate _ _ _, setsLe_refl _, setsLe_setUnionAt _ _ _⟩
         | exact ⟨keysLe_refl _, keysLe_refl _, apply_set_line_le _ _ _ _, setsLe_refl _⟩
         | exact ⟨keysLe_refl _, keysLe_refl _, setsLe_refl _, apply_set_line_le _ _ _ _⟩)

/- Any successfully consumed record only grows the model. -/
theorem step_record_accumLe (ps ps' : ParserState) (l : Record)
    (h : step_record ps l = .ok ps') : accumLe ps ps' := by
  unfold step_record at h
  cases l with
  | nil => exact Except.noConfusion h
  | cons f0 rest =>
    replace h : (if pyStartsWith f0 "**" = true then Except.ok ps
        else if pyStartsWith f0 "*" = true then step_keyword ps (f0 :: rest) f0
        else step_data ps (f0 :: rest) f0) = Except.ok ps' := h
    split_ifs at h
    · obtain rfl := Except.ok.inj h
      exact accumLe_refl ps
    · exact step_keyword_accumLe ps ps' _ _ h
    · exact step_data_accumLe ps ps' _ _ h

/- Folding the parser over any record suffix only grows the model. -/
theorem foldlM_step_record_accumLe (ls : List Record) :
    ∀ ps ps' : ParserState, ls.foldlM step_record ps = .ok ps' → accumLe ps ps' := by
  induction ls with
  | nil =>
    intro ps ps' h
    rw [List.foldlM_nil] at h
    obtain rfl := Except.ok.inj h
    exact accumLe_refl ps
  | cons l rest ih =>
    intro ps ps' h
    rw [List.foldlM_cons] at h
    cases hs : step_record ps l with
    | error e =>
      rw [hs] at h
      exact Except.noConfusion h
    | ok ps1 =>
      rw [hs] at h
      replace h : rest.foldlM step_record ps1 = .ok ps' := h
      exact accumLe_trans (step_record_accumLe ps ps1 l hs) (ih ps1 ps' h)

/-- Claim C9: a record whose first field starts with the doubled sigil `**`
is a comment: consuming it in any parser state leaves the state, the nodes,
the elements and every named set unchanged (the whole parser state is
returned as is) and raises no error. -/
theorem C9_comment_transparent (ps : ParserState) (f0 : String) (rest : List String)
    (h : pyStartsWith f0 "**" = true) :
    step_record ps (f0 :: rest) = .ok ps := by
  simp only [step_record, h, if_true]

theorem C9_comment_transparent_witness :
    step_record { init_state with st := State.Invalid } ["** note", "x"] =
      .ok { init_state with st := State.Invalid } :=
  C9_comment_transparent { init_state with st := State.Invalid } "** note" ["x"] (by decide)

/-- Claim C3 counterexample: the stream `*end part; *node; 1,0.0,0.0`
contains a data record after `*end part`, yet the parse completes
successfully (the `*node` keyword record leaves the Invalid state), so a
data record after `*end part` does not abort the run regardless of the
records in between. -/
theorem C3_counterexample :
    pyStartsWith "1" "*" = false ∧
    read_input [["*end part"], ["*node"], ["1", "0.0", "0.0"]] =
      .ok ⟨[(0, ["0.0", "0.0"])], [], [], []⟩ := by
  decide

/-- Claim C3 (amended): consuming a `*end part` keyword record puts the
parser in state Invalid, and every data record consumed while the state is
still Invalid (that is, with no intervening keyword record, which would
replace the state) aborts the parse with a fatal error. -/
theorem C3_invalid_state (ps : ParserState) (f0 : String) (rest : List String)
    (g0 : String) (grest : List String) :
    (pyStartsWith f0 "**" = false → pyStartsWith f0 "*" = true → pyLower f0 = "*end part" →
      step_record ps (f0 :: rest) = .ok { ps with st := State.Invalid }) ∧
    (ps.st = State.Invalid → pyStartsWith g0 "**" = false → pyStartsWith g0 "*" = false →
      step_record ps (g0 :: grest) = .error .invalidStateError) := by
  constructor
  · intro h1 h2 hk
    simp only [step_record, h1, h2, Bool.false_eq_true, if_false, if_true, step_keyword, hk]
    simp
  · intro hst h1 h2
    simp only [step_record, h1, h2, Bool.false_eq_true, if_false, step_data, hst]
    simp

theorem C3_invalid_state_witness :
    step_record init_state ["*end part"] = .ok { init_state with st := State.Invalid } ∧
    step_record { init_state with st := State.Invalid } ["1", "0.0"] =
      .error .invalidStateError :=
  ⟨(C3_invalid_state init_state "*end part" [] "1" ["0.0"]).1 (by decide) (by decide) (by decide),
   (C3_invalid_state { init_state with st := State.Invalid } "x" [] "1" ["0.0"]).2
     (by decide) (by decide) (by decide)⟩

/-- Claim C4 counterexample: with exactly one positional argument the
program does not print help and exit cleanly; `args['names'][1]` raises an
uncaught IndexError. -/
theorem C4_counterexample :
    command_line_runner ["in.inp"] = .raised .indexError ∧
    ¬ command_line_runner ["in.inp"] = .helpShown := by
  decide

/-- Claim C4 (amended): when both positional arguments are missing (the
names list is empty) the program prints usage and returns without error and
without attempting a conversion; when exactly one positional argument is
supplied the conversion is attempted and an uncaught IndexError escapes. -/
theorem C4_missing_args (names : List String) :
    (names = [] → command_line_runner names = .helpShown) ∧
    (names.length = 1 → command_line_runner names = .raised .indexError) := by
  constructor
  · rintro rfl
    rfl
  · intro hlen
    cases names with
    | nil => simp at hlen
    | cons x rest =>
      cases rest with
      | nil => simp [command_line_runner, inp_to_XML_args, List.get?]
      | cons y rest2 => simp at hlen

/-- Claim C5: a data line in state ReadNodes with integer first field `i`
stores the node under the zero-based id `i - 1` (with the remaining fields
as its coordinates), and a data line in state ReadCells stores the element
under `i - 1` with every connectivity reference `j` stored as `j - 1`, each
input id decremented exactly once. -/
theorem C5_zero_based_ids (ps ps' : ParserState) (f0 : String) (rest : List String) (i : Int)
    (h1 : pyStartsWith f0 "**" = false) (h2 : pyStartsWith f0 "*" = false)
    (hi : pyInt f0 = some i) (hpos : 0 < i)
    (h : step_record ps (f0 :: rest) = .ok ps') :
    (ps.st = State.ReadNodes → listGet? ps'.nodes (i - 1) = some rest) ∧
    (∀ js : List Int, ps.st = State.ReadCells → pyIntList rest = some js →
      listGet? ps'.elems (i - 1) = some (js.map (fun j => j - 1))) := by
  constructor
  · intro hst
    simp only [step_record, h1, h2, Bool.false_eq_true, if_false, step_data, hst, hi,
      List.tail_cons] at h
    cases hc : rest.all isPyFloat with
    | false =>
      rw [hc] at h
      simp at h
    | true =>
      rw [hc] at h
      simp at h
      cases hn : ps.node_set_name with
      | none =>
        rw [hn] at h
        simp at h
        subst h
        exact listGet?_listUpdate_self ps.nodes (i - 1) rest
      | some nm =>
        rw [hn] at h
        simp at h
        cases hg : listGet? ps.node_sets nm with
        | none => rw [hg] at h; simp at h
        | some S =>
          rw [hg] at h
          simp at h
          subst h
          exact listGet?_listUpdate_self ps.nodes (i - 1) rest
  · intro js hst hjs
    simp only [step_record, h1, h2, Bool.false_eq_true, if_false, step_data, hst, hi,
      List.tail_cons, hjs] at h
    simp at h
    cases hn : ps.cell_set_name with
    | none =>
      rw [hn] at h
      simp at h
      subst h
      exact listGet?_listUpdate_self ps.elems (i - 1) _
    | some nm =>
      rw [hn] at h
      simp at h
      cases hg : listGet? ps.cell_sets nm with
      | none => rw [hg] at h; simp at h
      | some S =>
        rw [hg] at h
        simp at h
        subst h
        exact listGet?_listUpdate_self ps.elems (i - 1) _

theorem C5_zero_based_ids_witness :
    (({ init_state with st := State.ReadNodes } : ParserState).st = State.ReadNodes →
      listGet? ({ init_state with st := State.ReadNodes, nodes := [(2, ["1.5", "2.5"])] }
        : ParserState).nodes (3 - 1) = some ["1.5", "2.5"]) ∧
    (∀ js : List Int,
      ({ init_state with st := State.ReadNodes } : ParserState).st = State.ReadCells →
      pyIntList ["1.5", "2.5"] = some js →
      listGet? ({ init_state with st := State.ReadNodes, nodes := [(2, ["1.5", "2.5"])] }
        : ParserState).elems (3 - 1) = some (js.map (fun j => j - 1))) :=
  C5_zero_based_ids { init_state with st := State.ReadNodes }
    { init_state with st := State.ReadNodes, nodes := [(2, ["1.5", "2.5"])] }
    "3" ["1.5", "2.5"] 3 (by decide) (by decide) (by decide) (by decide) (by decide)

/-- Claim C8: re-declaring a node id in state ReadNodes (or an element id
in state ReadCells) overwrites in place: after the step the id maps to the
new coordinates (connectivity), and every other id keeps its previous
binding, so the completed model holds only the latest declaration of each
id. -/
theorem C8_last_write_wins (ps ps' : ParserState) (f0 : String) (rest : List String) (i : Int)
    (h1 : pyStartsWith f0 "**" = false) (h2 : pyStartsWith f0 "*" = false)
    (hi : pyInt f0 = some i)
    (h : step_record ps (f0 :: rest) = .ok ps') :
    (ps.st = State.ReadNodes →
      listGet? ps'.nodes (i - 1) = some rest ∧
      ∀ j : Int, j ≠ i - 1 → listGet? ps'.nodes j = listGet? ps.nodes j) ∧
    (∀ js : List Int, ps.st = State.ReadCells → pyIntList rest = some js →
      listGet? ps'.elems (i - 1) = some (js.map (fun j => j - 1)) ∧
      ∀ j : Int, j ≠ i - 1 → listGet? ps'.elems j = listGet? ps.elems j) := by
  constructor
  · intro hst
    simp only [step_record, h1, h2, Bool.false_eq_true, if_false, step_data, hst, hi,
      List.tail_cons] at h
    cases hc : rest.all isPyFloat with
    | false =>
      rw [hc] at h
      simp at h
    | true =>
      rw [hc] at h
      simp at h
      cases hn : ps.node_set_name with
      | none =>
        rw [hn] at h
        simp at h
        subst h
        exact ⟨listGet?_listUpdate_self ps.nodes (i - 1) rest,
          fun j hj => listGet?_listUpdate_ne ps.nodes (i - 1) j rest hj⟩
      | some nm =>
        rw [hn] at h
        simp at h
        cases hg : listGet? ps.node_sets nm with
        | none => rw [hg] at h; simp at h
        | some S =>
          rw [hg] at h
          simp at h
          subst h
          exact ⟨listGet?_listUpdate_self ps.nodes (i - 1) rest,
            fun j hj => listGet?_listUpdate_ne ps.nodes (i - 1) j rest hj⟩
  · intro js hst hjs
    simp only [step_record, h1, h2, Bool.false_eq_true, if_false, step_data, hst, hi,
      List.tail_cons, hjs] at h
    simp at h
    cases hn : ps.cell_set_name with
    | none =>
      rw [hn] at h
      simp at h
      subst h
      exact ⟨listGet?_listUpdate_self ps.elems (i - 1) _,
        fun j hj => listGet?_listUpdate_ne ps.elems (i - 1) j _ hj⟩
    | some nm =>
      rw [hn] at h
      simp at h
      cases hg : listGet? ps.cell_sets nm with
      | none => rw [hg] at h; simp at h
      | some S =>
        rw [hg] at h
        simp at h
        subst h
        exact ⟨listGet?_listUpdate_self ps.elems (i - 1) _,
          fun j hj => listGet?_listUpdate_ne ps.elems (i - 1) j _ hj⟩

theorem C8_last_write_wins_witness :
    (({ init_state with st := State.ReadNodes, nodes := [(0, ["9.0", "9.0"])] }
        : ParserState).st = State.ReadNodes →
      listGet? ({ init_state with st := State.ReadNodes, nodes := [(0, ["1.0", "2.0"])] }
        : ParserState).nodes (1 - 1) = some ["1.0", "2.0"] ∧
      ∀ j : Int, j ≠ 1 - 1 →
        listGet? ({ init_state with st := State.ReadNodes, nodes := [(0, ["1.0", "2.0"])] }
          : ParserState).nodes j =
        listGet? ({ init_state with st := State.ReadNodes, nodes := [(0, ["9.0", "9.0"])] }
          : ParserState).nodes j) ∧
    (∀ js : List Int,
      ({ init_state with st := State.ReadNodes, nodes := [(0, ["9.0", "9.0"])] }
        : ParserState).st = State.ReadCells →
      pyIntList ["1.0", "2.0"] = some js →
      listGet? ({ init_state with st := State.ReadNodes, nodes := [(0, ["1.0", "2.0"])] }
        : ParserState).elems (1 - 1) = some (js.map (fun j => j - 1)) ∧
      ∀ j : Int, j ≠ 1 - 1 →
        listGet? ({ init_state with st := State.ReadNodes, nodes := [(0, ["1.0", "2.0"])] }
          : ParserState).elems j =
        listGet? ({ init_state with st := State.ReadNodes, nodes := [(0, ["9.0", "9.0"])] }
          : ParserState).elems j) :=
  C8_last_write_wins { init_state with st := State.ReadNodes, nodes := [(0, ["9.0", "9.0"])] }
    { init_state with st := State.ReadNodes, nodes := [(0, ["1.0", "2.0"])] }
    "1" ["1.0", "2.0"] 1 (by decide) (by decide) (by decide) (by decide)

/-- Claim C2: a generate-mode data line with integer fields
`start, end, increment` (positive increment) read in state ReadNodeSet or
ReadElementSet unions into the active set exactly the stride sequence from
`start - 1` up to but not reaching `end - 1`, plus the endpoint `end - 1`
itself, which is always included even off-stride. -/
theorem C2_generate_inclusive (ps : ParserState) (a b c : String) (s e inc : Int)
    (nm : String) (S : Finset Int)
    (h1 : pyStartsWith a "**" = false) (h2 : pyStartsWith a "*" = false)
    (ha : pyInt a = some s) (hb : pyInt b = some e) (hc : pyInt c = some inc)
    (hinc : 0 < inc) :
    (ps.st = State.ReadNodeSet → ps.gen = some true → ps.node_set_name = some nm →
      listGet? ps.node_sets nm = some S →
      ∃ ps' : ParserState, step_record ps [a, b, c] = .ok ps' ∧
        ∃ T : Finset Int, listGet? ps'.node_sets nm = some T ∧
          ∀ x : Int, x ∈ T ↔ x ∈ S ∨
            (∃ k : Nat, x = (s - 1) + inc * (k : Int) ∧ x < e - 1) ∨ x = e - 1) ∧
    (ps.st = State.ReadCellSet → ps.gen = some true → ps.cell_set_name = some nm →
      listGet? ps.cell_sets nm = some S →
      ∃ ps' : ParserState, step_record ps [a, b, c] = .ok ps' ∧
        ∃ T : Finset Int, listGet? ps'.cell_sets nm = some T ∧
          ∀ x : Int, x ∈ T ↔ x ∈ S ∨
            (∃ k : Nat, x = (s - 1) + inc * (k : Int) ∧ x < e - 1) ∨ x = e - 1) := by
  have hinc0 : ¬ (inc = 0) := by omega
  have hids : set_line_ids (some true) [a, b, c] =
      some (pyRange (s - 1) (e - 1) inc ++ [e - 1]) := by
    rw [set_line_ids, if_pos rfl]
    simp only [generate_line_ids, ha, hb, hc]
    simp [hinc0]
  constructor
  · intro hst hg hn hS
    have happ : apply_set_line ps.node_sets ps.node_set_name ps.gen [a, b, c] =
        setUnionAt ps.node_sets nm (pyRange (s - 1) (e - 1) inc ++ [e - 1]).toFinset := by
      rw [hn, hg]
      simp only [apply_set_line, hS, hids]
    have hstep : step_record ps [a, b, c] =
        .ok { ps with node_sets := apply_set_line ps.node_sets ps.node_set_name ps.gen [a, b, c] } := by
      simp only [step_record, h1, h2, Bool.false_eq_true, if_false, step_data, hst]
      simp
    refine ⟨_, hstep, ?_⟩
    rw [happ]
    refine ⟨S ∪ (pyRange (s - 1) (e - 1) inc ++ [e - 1]).toFinset, ?_, ?_⟩
    · exact listGet?_setUnionAt_self ps.node_sets nm _ S hS
    · intro x
      simp only [Finset.mem_union, List.mem_toFinset, List.mem_append, List.mem_singleton]
      rw [mem_pyRange_pos _ _ _ _ hinc]
  · intro hst hg hn hS
    have happ : apply_set_line ps.cell_sets ps.cell_set_name ps.gen [a, b, c] =
        setUnionAt ps.cell_sets nm (pyRange (s - 1) (e - 1) inc ++ [e - 1]).toFinset := by
      rw [hn, hg]
      simp only [apply_set_line, hS, hids]
    have hstep : step_record ps [a, b, c] =
        .ok { ps with cell_sets := apply_set_line ps.cell_sets ps.cell_set_name ps.gen [a, b, c] } := by
      simp only [step_record, h1, h2, Bool.false_eq_true, if_false, step_data, hst]
      simp
    refine ⟨_, hstep, ?_⟩
    rw [happ]
    refine ⟨S ∪ (pyRange (s - 1) (e - 1) inc ++ [e - 1]).toFinset, ?_, ?_⟩
    · exact listGet?_setUnionAt_self ps.cell_sets nm _ S hS
    · intro x
      simp only [Finset.mem_union, List.mem_toFinset, List.mem_append, List.mem_singleton]
      rw [mem_pyRange_pos _ _ _ _ hinc]

theorem C2_generate_inclusive_witness :
    (pyRange (1 - 1) (10 - 1) 2 ++ [10 - 1]).toFinset = ({0, 2, 4, 6, 8, 9} : Finset Int) ∧
    (∃ ps' : ParserState,
      step_record { init_state with st := State.ReadNodeSet, gen := some true, node_set_name := some "B", node_sets := [("B", ∅)] } ["1", "10", "2"] = .ok ps' ∧
      ∃ T : Finset Int, listGet? ps'.node_sets "B" = some T ∧
        ∀ x : Int, x ∈ T ↔ x ∈ (∅ : Finset Int) ∨
          (∃ k : Nat, x = (1 - 1) + 2 * (k : Int) ∧ x < 10 - 1) ∨ x = 10 - 1) :=
  ⟨by decide,
   (C2_generate_inclusive { init_state with st := State.ReadNodeSet, gen := some true, node_set_name := some "B", node_sets := [("B", ∅)] } "1" "10" "2" 1 10 2 "B" ∅
      (by decide) (by decide) (by decide) (by decide) (by decide) (by decide)).1
     (by decide) (by decide) (by decide) (by decide)⟩

/- A set data line whose relevant tokens contain a non-integer parses to
`none` (the catch-all branch): in generate mode any bad token among the
three fields (or a wrong field count) fails, in explicit mode any bad token
after dropping a trailing empty field fails. -/
theorem set_line_ids_eq_none (g : Option Bool) (l : Record) (t : String)
    (hmem : t ∈ (if g = some true then l else strip_trailing_empty l))
    (hbad : pyInt t = none) : set_line_ids g l = none := by
  by_cases hg : g = some true
  · rw [if_pos hg] at hmem
    subst hg
    rw [set_line_ids, if_pos rfl]
    obtain _ | ⟨a, l1⟩ := l
    · cases hmem
    · obtain _ | ⟨b, l2⟩ := l1
      · simp [generate_line_ids]
      · obtain _ | ⟨c, l3⟩ := l2
        · simp [generate_line_ids]
        · obtain _ | ⟨d, l4⟩ := l3
          · rcases List.mem_cons.mp hmem with rfl | hm
            · simp [generate_line_ids, hbad]
            · rcases List.mem_cons.mp hm with rfl | hm2
              · cases ha : pyInt a <;> simp [generate_line_ids, ha, hbad]
              · rcases List.mem_cons.mp hm2 with rfl | hm3
                · cases ha : pyInt a <;> cases hb : pyInt b <;>
                    simp [generate_line_ids, ha, hb, hbad]
                · cases hm3
          · simp [generate_line_ids]
  · rw [if_neg hg] at hmem
    rw [set_line_ids, if_neg hg]
    rw [pyIntList_eq_none hmem hbad]
    rfl

/- When the set line parses to nothing, the whole `try` body leaves the
dictionary unchanged. -/
theorem apply_set_line_none (m : List (String × Finset Int)) (name? : Option String)
    (g : Option Bool) (l : Record) (h : set_line_ids g l = none) :
    apply_set_line m name? g l = m := by
  unfold apply_set_line
  split
  · rfl
  · split
    · rfl
    · split
      · rfl
      · rename_i ids heq
        rw [h] at heq
        exact Option.noConfusion heq

/-- Claim C6 counterexample: in explicit mode the trailing empty field of
the data line `1,` is popped before integer conversion, so this line
contains the token `""`, which is not parseable as an integer, and yet it
is not skipped: it adds id 0 to the active set. -/
theorem C6_counterexample :
    pyInt "" = none ∧ "" ∈ (["1", ""] : List String) ∧
    step_record { init_state with st := State.ReadNodeSet, node_set_name := some "A", node_sets := [("A", ∅)] } ["1", ""] =
      .ok { init_state with st := State.ReadNodeSet, node_set_name := some "A", node_sets := [("A", ({0} : Finset Int))] } ∧
    ¬ ({0} : Finset Int) = (∅ : Finset Int) := by
  decide

/-- Claim C6 (amended): a data line read in state ReadNodeSet or
ReadElementSet that contains a token not parseable as an integer — outside
of a single trailing empty field, which explicit mode drops before
conversion — is skipped whole with only a warning: the parser state, every
set and the rest of the model are unchanged and no error is raised. -/
theorem C6_bad_token_line_skipped (ps : ParserState) (f0 : String) (rest : List String)
    (t : String)
    (h1 : pyStartsWith f0 "**" = false) (h2 : pyStartsWith f0 "*" = false)
    (hmem : t ∈ (if ps.gen = some true then f0 :: rest else strip_trailing_empty (f0 :: rest)))
    (hbad : pyInt t = none) :
    (ps.st = State.ReadNodeSet → step_record ps (f0 :: rest) = .ok ps) ∧
    (ps.st = State.ReadCellSet → step_record ps (f0 :: rest) = .ok ps) := by
  obtain ⟨st, nodes, elems, nsets, csets, ssets, nsn, csn, ssn, g, ct, pn, mn⟩ := ps
  have hids := set_line_ids_eq_none g (f0 :: rest) t hmem hbad
  constructor
  · intro hst
    replace hst : st = State.ReadNodeSet := hst
    subst hst
    simp only [step_record, h1, h2, Bool.false_eq_true, if_false, step_data]
    simp [apply_set_line_none _ _ _ _ hids]
  · intro hst
    replace hst : st = State.ReadCellSet := hst
    subst hst
    simp only [step_record, h1, h2, Bool.false_eq_true, if_false, step_data]
    simp [apply_set_line_none _ _ _ _ hids]

theorem C6_bad_token_line_skipped_witness :
    (({ init_state with st := State.ReadNodeSet, node_set_name := some "A", node_sets := [("A", ∅)] } : ParserState).st = State.ReadNodeSet →
      step_record { init_state with st := State.ReadNodeSet, node_set_name := some "A", node_sets := [("A", ∅)] } ["1", "x", "3"] =
        .ok { init_state with st := State.ReadNodeSet, node_set_name := some "A", node_sets := [("A", ∅)] }) ∧
    (({ init_state with st := State.ReadNodeSet, node_set_name := some "A", node_sets := [("A", ∅)] } : ParserState).st = State.ReadCellSet →
      step_record { init_state with st := State.ReadNodeSet, node_set_name := some "A", node_sets := [("A", ∅)] } ["1", "x", "3"] =
        .ok { init_state with st := State.ReadNodeSet, node_set_name := some "A", node_sets := [("A", ∅)] }) :=
  C6_bad_token_line_skipped
    { init_state with st := State.ReadNodeSet, node_set_name := some "A", node_sets := [("A", ∅)] }
    "1" ["x", "3"] "x" (by decide) (by decide) (by decide) (by decide)

/-- Claim C7 counterexample: a `*node` keyword record that carries
`nset=A` among its trailing fields but has three fields in total is not
inspected for the option (only two-field records are): no node-set is
created, no active set is remembered, and the following node line joins no
set. -/
theorem C7_counterexample :
    run_parse [["*node", "nset=A", "extra"], ["1", "0.0", "0.0"]] =
      .ok { init_state with st := State.ReadNodes, nodes := [(0, ["0.0", "0.0"])] } ∧
    ({ init_state with st := State.ReadNodes, nodes := [(0, ["0.0", "0.0"])] }
      : ParserState).node_sets = [] ∧
    ({ init_state with st := State.ReadNodes, nodes := [(0, ["0.0", "0.0"])] }
      : ParserState).node_set_name = none := by
  decide

/-- Claim C7 (amended): a `*node` keyword record of exactly two fields
whose second field is an `nset=<name>` option creates the named node-set if
absent and remembers it as the active set, and every node declared by a
following data line — an integer id field followed by float-parseable
coordinate fields, anything else aborting the run — has its zero-based id
added to that set. -/
theorem C7_node_nset_active (ps : ParserState) (f0 f1 k nm g0 : String)
    (grest : List String) (i : Int)
    (h1 : pyStartsWith f0 "**" = false) (h2 : pyStartsWith f0 "*" = true)
    (hk : pyLower f0 = "*node") (hsp : pySplitEq f1 = [k, nm]) (hkl : pyLower k = "nset") :
    ∃ ps1 : ParserState,
      step_record ps [f0, f1] = .ok ps1 ∧
      ps1.node_set_name = some nm ∧
      (∃ S : Finset Int, listGet? ps1.node_sets nm = some S) ∧
      (pyStartsWith g0 "**" = false → pyStartsWith g0 "*" = false → pyInt g0 = some i →
        grest.all isPyFloat = true →
        ∃ ps2 : ParserState, step_record ps1 (g0 :: grest) = .ok ps2 ∧
          ∃ T : Finset Int, listGet? ps2.node_sets nm = some T ∧ (i - 1) ∈ T) := by
  have hstep : step_record ps [f0, f1] =
      .ok { ps with st := State.ReadNodes, node_sets := ensureKey ps.node_sets nm,
                    node_set_name := some nm } := by
    simp only [step_record, h1, h2, Bool.false_eq_true, if_false, if_true, step_keyword, hk,
      create_node_list_entry, hsp, hkl]
    simp
  refine ⟨_, hstep, rfl, ?_, ?_⟩
  · have hs := isSome_listGet?_ensureKey_self ps.node_sets nm
    cases hv : listGet? (ensureKey ps.node_sets nm) nm with
    | none => rw [hv] at hs; cases hs
    | some S => exact ⟨S, rfl⟩
  · intro hg1 hg2 hgi hgf
    have hs := isSome_listGet?_ensureKey_self ps.node_sets nm
    cases hv : listGet? (ensureKey ps.node_sets nm) nm with
    | none => rw [hv] at hs; cases hs
    | some S =>
      refine ⟨{ ps with st := State.ReadNodes, node_set_name := some nm, nodes := listUpdate ps.nodes (i - 1) grest, node_sets := setUnionAt (ensureKey ps.node_sets nm) nm {i - 1} }, ?_, ?_⟩
      · simp only [step_record, hg1, hg2, Bool.false_eq_true, if_false, step_data, hgi,
          List.tail_cons, hgf]
        simp [hv]
      · exact ⟨S ∪ {i - 1}, listGet?_setUnionAt_self _ nm _ S hv,
          Finset.mem_union_right S (Finset.mem_singleton_self (i - 1))⟩

theorem C7_node_nset_active_witness :
    ∃ ps1 : ParserState,
      step_record init_state ["*node", "nset=A"] = .ok ps1 ∧
      ps1.node_set_name = some "A" ∧
      (∃ S : Finset Int, listGet? ps1.node_sets "A" = some S) ∧
      (pyStartsWith "2" "**" = false → pyStartsWith "2" "*" = false → pyInt "2" = some 2 →
        (["0.5", "0.5"] : List String).all isPyFloat = true →
        ∃ ps2 : ParserState, step_record ps1 ["2", "0.5", "0.5"] = .ok ps2 ∧
          ∃ T : Finset Int, listGet? ps2.node_sets "A" = some T ∧ ((2 : Int) - 1) ∈ T) :=
  C7_node_nset_active init_state "*node" "nset=A" "nset" "A" "2" ["0.5", "0.5"] 2
    (by decide) (by decide) (by decide) (by decide) (by decide)

/- The cells section depends on each connectivity list only through its
first three entries. -/
theorem cell_lines_take3 (elems : List (Int × List Int)) :
    cell_lines (elems.map (fun p => (p.1, p.2.take 3))) = cell_lines elems := by
  induction elems with
  | nil => rfl
  | cons q rest ih =>
    obtain ⟨cid, conn⟩ := q
    obtain _ | ⟨v0, _ | ⟨v1, _ | ⟨v2, tl⟩⟩⟩ := conn
    · simp [cell_lines]
    · simp [cell_lines]
    · simp [cell_lines]
    · simp [cell_lines, ih]

/- With every connectivity of length at least 3 the cells section is
written whole, with no error. -/
theorem cell_lines_all_good (elems : List (Int × List Int))
    (h : ∀ q ∈ elems, 3 ≤ q.2.length) : (cell_lines elems).2 = none := by
  induction elems with
  | nil => rfl
  | cons q rest ih =>
    obtain ⟨cid, conn⟩ := q
    obtain _ | ⟨v0, _ | ⟨v1, _ | ⟨v2, tl⟩⟩⟩ := conn
    · exact absurd (h (cid, []) (by simp)) (by simp)
    · exact absurd (h (cid, [v0]) (by simp)) (by simp)
    · exact absurd (h (cid, [v0, v1]) (by simp)) (by simp)
    · simpa [cell_lines] using ih (fun q hq => h q (List.mem_cons_of_mem _ hq))

/- The first element with a connectivity shorter than 3 stops the cells
section: the text is the lines of the well-formed prefix and the error is
the IndexError. -/
theorem cell_lines_short (pre : List (Int × List Int)) (cid : Int) (conn : List Int)
    (post : List (Int × List Int)) (hpre : ∀ q ∈ pre, 3 ≤ q.2.length)
    (hconn : conn.length < 3) :
    cell_lines (pre ++ (cid, conn) :: post) = ((cell_lines pre).1, some .indexError) := by
  induction pre with
  | nil =>
    obtain _ | ⟨v0, _ | ⟨v1, _ | ⟨v2, tl⟩⟩⟩ := conn
    · simp [cell_lines]
    · simp [cell_lines]
    · simp [cell_lines]
    · exact absurd hconn (by simp)
  | cons q pre' ih =>
    obtain ⟨qc, qconn⟩ := q
    have hq := hpre (qc, qconn) (by simp)
    obtain _ | ⟨v0, _ | ⟨v1, _ | ⟨v2, tl⟩⟩⟩ := qconn
    · simp at hq
    · simp at hq
    · simp at hq
    · have ih' := ih (fun q hq => hpre q (List.mem_cons_of_mem _ hq))
      simp [cell_lines, ih']

/-- Claim C10: for every element the serializer writes the triangle tag's
`v0,v1,v2` from exactly the first three entries of its connectivity:
entries beyond the third never influence the output and cause no error,
and an element with fewer than three entries makes serialization fail with
an IndexError after the partial output (header, vertices, and the cell
lines before it) has been written. -/
theorem C10_serializer (nodes : List (Int × List String)) (elems : List (Int × List Int))
    (nsets csets : List (String × Finset Int)) :
    write_XMP nodes elems nsets csets =
      write_XMP nodes (elems.map (fun p => (p.1, p.2.take 3))) nsets csets ∧
    ((∀ q ∈ elems, 3 ≤ q.2.length) → (write_XMP nodes elems nsets csets).2 = none) ∧
    (∀ (pre : List (Int × List Int)) (cid : Int) (conn : List Int)
        (post : List (Int × List Int)),
      elems = pre ++ (cid, conn) :: post → (∀ q ∈ pre, 3 ≤ q.2.length) → conn.length < 3 →
      write_XMP nodes elems nsets csets =
        (xmp_head nodes elems.length ++ (cell_lines pre).1, some PyErr.indexError)) := by
  refine ⟨?_, ?_, ?_⟩
  · unfold write_XMP
    rw [cell_lines_take3, List.length_map]
  · intro hall
    have h2 := cell_lines_all_good elems hall
    unfold write_XMP
    cases hc : cell_lines elems with
    | mk ctext err =>
      rw [hc] at h2
      simp only at h2
      subst h2
      rfl
  · intro pre cid conn post heq hpre hconn
    subst heq
    unfold write_XMP
    rw [cell_lines_short pre cid conn post hpre hconn]

theorem C10_serializer_witness :
    write_XMP [] [(0, [1, 2, 3, 4]), (1, [5])] [] [] =
      (xmp_head [] ([(0, [1, 2, 3, 4]), (1, [5])] : List (Int × List Int)).length ++
        (cell_lines [(0, [1, 2, 3, 4])]).1, some PyErr.indexError) ∧
    (write_XMP [] [(7, [1, 2, 3, 4])] [] []).2 = none :=
  ⟨(C10_serializer [] [(0, [1, 2, 3, 4]), (1, [5])] [] []).2.2
      [(0, [1, 2, 3, 4])] 1 [5] [] (by decide) (by decide) (by decide),
   (C10_serializer [] [(7, [1, 2, 3, 4])] [] []).2.1 (by decide)⟩

/-- Claim C1 counterexample: two streams that differ only in the content
accumulated into a surface-set produce the same return value of
`_read_input` — the surface-set dictionary is filled during the pass and
then dropped, so the model handed to the serializer is not the aggregate of
all five collections. -/
theorem C1_counterexample :
    read_input [["*surface", "name=S1"], ["E1_S1", "S1", ""]] =
      read_input [["*surface", "name=S1"]] ∧
    (run_parse [["*surface", "name=S1"], ["E1_S1", "S1", ""]]).map ParserState.surface_sets ≠
      (run_parse [["*surface", "name=S1"]]).map ParserState.surface_sets := by
  decide

/-- Claim C1 (amended): on a successful parse the model `_read_input`
returns is the aggregate of the four collections nodes, elements, node-sets
and element-sets: everything accumulated by any prefix of the stream is
still present at the end (node and element ids stay present, named sets
stay present with at least their earlier members).  Surface-sets are
accumulated during the pass but are not part of the returned model. -/
theorem C1_model_aggregation (pre post : List Record) (m1 : ParserState) (mm : MeshModel)
    (h1 : run_parse pre = .ok m1) (h2 : read_input (pre ++ post) = .ok mm) :
    ∃ m2 : ParserState, run_parse (pre ++ post) = .ok m2 ∧ accumLe m1 m2 ∧
      mm.nodes = m2.nodes ∧ mm.elems = m2.elems ∧
      mm.node_sets = m2.node_sets ∧ mm.cell_sets = m2.cell_sets := by
  unfold read_input at h2
  cases hrp : run_parse (pre ++ post) with
  | error e =>
    rw [hrp] at h2
    exact Except.noConfusion h2
  | ok m2 =>
    rw [hrp] at h2
    replace h2 : Except.ok (⟨m2.nodes, m2.elems, m2.node_sets, m2.cell_sets⟩ : MeshModel) =
        .ok mm := h2
    obtain rfl := Except.ok.inj h2
    refine ⟨m2, rfl, ?_, rfl, rfl, rfl, rfl⟩
    unfold run_parse at hrp h1
    rw [List.foldlM_append, h1] at hrp
    replace hrp : post.foldlM step_record m1 = .ok m2 := hrp
    exact foldlM_step_record_accumLe post m1 m2 hrp

theorem C1_model_aggregation_witness :
    ∃ m2 : ParserState, run_parse ([["*heading"]] ++ [["*node"]]) = .ok m2 ∧
      accumLe { init_state with st := State.ReadHeading } m2 ∧
      (⟨[], [], [], []⟩ : MeshModel).nodes = m2.nodes ∧
      (⟨[], [], [], []⟩ : MeshModel).elems = m2.elems ∧
      (⟨[], [], [], []⟩ : MeshModel).node_sets = m2.node_sets ∧
      (⟨[], [], [], []⟩ : MeshModel).cell_sets = m2.cell_sets :=
  C1_model_aggregation [["*heading"]] [["*node"]]
    { init_state with st := State.ReadHeading } ⟨[], [], [], []⟩ (by decide) (by decide)

theorem C4_missing_args_witness :
    command_line_runner ([] : List String) = CmdResult.helpShown ∧
    command_line_runner ["only.inp"] = CmdResult.raised PyErr.indexError :=
  ⟨(C4_missing_args []).1 rfl, (C4_missing_args ["only.inp"]).2 (by decide)⟩
